import Mathlib

/-!
Verification of the NBD client driver (drivers/block-nbd.c core) of this
repository: a shallow embedding of the request engine, the socket transport,
the handshake negotiator and the fd stash, together with proofs of the
specification claims about them.

Machine integers of the C source are modelled as Nat / Int; the nondeterminism
of the environment (the peer socket and the event scheduler) is modelled by
explicit event lists threaded through the operations.  A finite event list
encodes a socket behaviour prefix; exhausting it behaves like EAGAIN (the
socket would block), which is exactly how the C code leaves its loops.
-/

namespace Tdnbd

/-- NBD command type constants.  Modelled from the spec: the numeric values of
TAPDISK_NBD_CMD_READ / WRITE / DISC come from a protocol header that is not
under src/; the spec fixes READ=0, WRITE=1, DISC=2. -/
def TAPDISK_NBD_CMD_READ : Nat := 0

def TAPDISK_NBD_CMD_WRITE : Nat := 1

def TAPDISK_NBD_CMD_DISC : Nat := 2

/-- Linux errno values used by the driver. -/
def eio : Int := 5

def ebusy : Int := 16

def etimedout : Int := 110

/-- Outcome of one send(2)/recv(2) call on the non-blocking socket:
EAGAIN/EWOULDBLOCK, a failure with any other errno (the syscall returns -1),
or a byte count (0 means the peer shut down). -/
inductive SendRes where
  | again : SendRes
  | fail : SendRes
  | ret : Nat → SendRes
deriving DecidableEq

/-- A buffer with cursor, struct nbd_queued_io (the buffer pointer itself is
not needed by any claim, only len and so_far). -/
structure NbdQio where
  len : Nat
  soFar : Nat
deriving DecidableEq

/-- Result of tdnbd_write_some / tdnbd_read_some: the returned int, the final
so_far cursor, and how many send/recv calls were made. -/
structure XferOut where
  ret : Int
  soFar : Nat
  calls : Nat
deriving DecidableEq

/-- The loop of tdnbd_write_some: left = len - so_far; while left > 0 send;
EAGAIN returns left, other errors return -1 (the rc of send), a 0 return is
premature peer shutdown and returns -1, otherwise left -= rc, so_far += rc;
once left ≤ 0 the loop exits returning left with no further calls.  An
exhausted event list means the socket would block now, which ends the loop
the same way EAGAIN does except that no call was charged for it. -/
def tdnbd_write_some_aux : Int → Nat → List SendRes → XferOut
  | left, soFar, [] => ⟨left, soFar, 0⟩
  | left, soFar, .again :: _ =>
    if left ≤ 0 then ⟨left, soFar, 0⟩ else ⟨left, soFar, 1⟩
  | left, soFar, .fail :: _ =>
    if left ≤ 0 then ⟨left, soFar, 0⟩ else ⟨-1, soFar, 1⟩
  | left, soFar, .ret 0 :: _ =>
    if left ≤ 0 then ⟨left, soFar, 0⟩ else ⟨-1, soFar, 1⟩
  | left, soFar, .ret (n + 1) :: rest =>
    if left ≤ 0 then ⟨left, soFar, 0⟩
    else
      ⟨(tdnbd_write_some_aux (left - ((n : Int) + 1)) (soFar + (n + 1)) rest).ret,
       (tdnbd_write_some_aux (left - ((n : Int) + 1)) (soFar + (n + 1)) rest).soFar,
       (tdnbd_write_some_aux (left - ((n : Int) + 1)) (soFar + (n + 1)) rest).calls + 1⟩

def tdnbd_write_some (q : NbdQio) (evs : List SendRes) : XferOut :=
  tdnbd_write_some_aux ((q.len : Int) - (q.soFar : Int)) q.soFar evs

/-- The loop of tdnbd_read_some; the C body is identical to the write loop up
to the order of the two cursor updates. -/
def tdnbd_read_some_aux : Int → Nat → List SendRes → XferOut
  | left, soFar, [] => ⟨left, soFar, 0⟩
  | left, soFar, .again :: _ =>
    if left ≤ 0 then ⟨left, soFar, 0⟩ else ⟨left, soFar, 1⟩
  | left, soFar, .fail :: _ =>
    if left ≤ 0 then ⟨left, soFar, 0⟩ else ⟨-1, soFar, 1⟩
  | left, soFar, .ret 0 :: _ =>
    if left ≤ 0 then ⟨left, soFar, 0⟩ else ⟨-1, soFar, 1⟩
  | left, soFar, .ret (n + 1) :: rest =>
    if left ≤ 0 then ⟨left, soFar, 0⟩
    else
      ⟨(tdnbd_read_some_aux (left - ((n : Int) + 1)) (soFar + (n + 1)) rest).ret,
       (tdnbd_read_some_aux (left - ((n : Int) + 1)) (soFar + (n + 1)) rest).soFar,
       (tdnbd_read_some_aux (left - ((n : Int) + 1)) (soFar + (n + 1)) rest).calls + 1⟩

def tdnbd_read_some (q : NbdQio) (evs : List SendRes) : XferOut :=
  tdnbd_read_some_aux ((q.len : Int) - (q.soFar : Int)) q.soFar evs

/-- One tdnbd_wait_recv outcome: the returned rc (negative on select/recv
failure or timeout, else the byte count) and the host-order value of the field
the received bytes decode to. -/
structure WaitRecvRes where
  rc : Int
  v : Nat
deriving DecidableEq

/-- The 124-byte pad drain loop of the OLD negotiation: while padbytes > 0,
wait_recv; a negative rc aborts, otherwise padbytes -= rc.  some true =
drained, some false = aborted with error, none = the event prefix was
exhausted while the loop would still iterate. -/
def drain_pad_bytes : Int → List WaitRecvRes → Option Bool
  | pad, evs =>
    if pad ≤ 0 then some true
    else
      match evs with
      | [] => none
      | ev :: rest => if ev.rc < 0 then some false else drain_pad_bytes (pad - ev.rc) rest

/-- td_disk_info fields touched by negotiation. -/
structure TdDiskInfo where
  size : Nat
  sectorSize : Nat
  inf : Nat
deriving DecidableEq

/-- Modelled from the spec: SECTOR_SHIFT comes from a header not under src/;
the spec fixes size_in_sectors = export_size >> 9. -/
def SECTOR_SHIFT : Nat := 9

/-- Modelled from the spec: DEFAULT_SECTOR_SIZE comes from a header not under
src/; the spec fixes sector_size = 512. -/
def DEFAULT_SECTOR_SIZE : Nat := 512

/-- tdnbd_nbd_negotiate_old after the two magics: recv the u64 size (error on
negative rc or short read), fill driver->info, recv the u32 flags (same
checks), drain the 124 pad bytes, flip to non-blocking (the fcntl is assumed
to succeed).  The event list drives every wait_recv. -/
def tdnbd_nbd_negotiate_old : List WaitRecvRes → Option (Except Unit TdDiskInfo)
  | [] => none
  | ev1 :: evs1 =>
    if ev1.rc < 0 then some (.error ())
    else if ev1.rc < 8 then some (.error ())
    else
      let info : TdDiskInfo :=
        ⟨ev1.v >>> SECTOR_SHIFT, DEFAULT_SECTOR_SIZE, 0⟩
      match evs1 with
      | [] => none
      | ev2 :: evs2 =>
        if ev2.rc < 0 then some (.error ())
        else if ev2.rc < 4 then some (.error ())
        else
          match drain_pad_bytes 124 evs2 with
          | none => none
          | some false => some (.error ())
          | some true => some (.ok info)

/-- negotiate_client_newstyle_options: two send_fully_or_fail results s1, s2
(negative aborts), then one wait_recv of the 10-byte export-name reply whose
rc is only checked for being negative; on success driver->info is filled from
the export size.  The fcntl to non-blocking is assumed to succeed. -/
def negotiate_client_newstyle_options (s1 s2 : Int) (ev : WaitRecvRes) :
    Except Unit TdDiskInfo :=
  if s1 < 0 then .error ()
  else if s2 < 0 then .error ()
  else if ev.rc < 0 then .error ()
  else .ok ⟨ev.v >>> SECTOR_SHIFT, DEFAULT_SECTOR_SIZE, 0⟩

/-- Lower-case hex digit as an ASCII byte, as printf %x renders it. -/
def hexDigit (n : Nat) : Nat := if n < 10 then 48 + n else 87 + n

/-- The five hex digits %05x prints for a value below 16^5. -/
def hex5 (v : Nat) : List Nat :=
  [hexDigit (v / 65536 % 16), hexDigit (v / 4096 % 16), hexDigit (v / 256 % 16),
   hexDigit (v / 16 % 16), hexDigit (v % 16)]

/-- The 8 bytes snprintf(handle, 8, "td%05x", id % 0xffff) writes: 't', 'd',
five hex digits of id % 0xffff (which is < 16^4, so %05x gives exactly five
digits), and the terminating NUL. -/
def handleBytes (id : Nat) : List Nat :=
  116 :: 100 :: hex5 (id % 65535) ++ [0]

/-- Handle formation as the claim words it, for comparison with the code:
"td" followed by 5 hex digits of the counter taken modulo 2^20. -/
def handleBytesClaim (id : Nat) : List Nat :=
  116 :: 100 :: hex5 (id % 1048576) ++ [0]

/-- One request slot, struct td_nbd_request.  The wire header's magic and
byte order are invisible to every claim; type, handle, offset and length are
kept in host order. -/
structure NbdRequest where
  treq : Nat
  typ : Nat
  handle : List Nat
  reqFrom : Nat
  reqLen : Nat
  headerQio : NbdQio
  bodyQio : NbdQio
  timeoutEvent : Int
deriving DecidableEq

/-- struct nbd_reply as far as the engine reads it (the magic field is never
checked by the reader callback). -/
structure NbdReply where
  error : Nat
  handle : List Nat
deriving DecidableEq

/-- struct tdnbd_data plus the process-wide global_id counter and the
scheduler's fresh event-id source.  The three intrusive lists are lists of
slot indices into requests. -/
structure TdnbdData where
  writerEventId : Int
  sentReqs : List Nat
  pendingReqs : List Nat
  freeReqs : List Nat
  requests : Nat → NbdRequest
  nrFreeCount : Nat
  readerEventId : Int
  currentReply : NbdReply
  curReplyQio : NbdQio
  currReplyReq : Option Nat
  closed : Nat
  globalId : Nat
  schedNext : Nat

/-- Result of an engine entry point: the new state, the C return value, the
td_complete_request calls made (upstream token, errno), and the
tapdisk_server_unregister_event calls made. -/
structure EngineOut where
  state : TdnbdData
  ret : Int
  comps : List (Nat × Int)
  unregs : List Int

def setReq (s : TdnbdData) (i : Nat) (r : NbdRequest) : TdnbdData :=
  { s with requests := Function.update s.requests i r }

/-- enable_write_queue.  Modelled from the spec: tapdisk_server_register_event
is repository code not under src/; per the spec's scheduler interface it
returns a fresh event id, modelled as the always-nonnegative counter
schedNext. -/
def enable_write_queue (s : TdnbdData) : TdnbdData :=
  if 0 ≤ s.writerEventId then s
  else { s with writerEventId := (s.schedNext : Int), schedNext := s.schedNext + 1 }

/-- disable_write_queue: unregister the writer event if registered and reset
the id to -1.  Returns the unregister calls made. -/
def disable_write_queue (s : TdnbdData) : TdnbdData × List Int :=
  if s.writerEventId < 0 then (s, [])
  else ({ s with writerEventId := -1 }, [s.writerEventId])

/-- The slot fill of tdnbd_queue_request, once the head i of the free list
has been detached: record the upstream token, the wire header fields and the
snprintf handle, reset both cursors, move the slot to the tail of
pending_reqs, decrement nr_free_count and advance the global counter. -/
def queueFill (s : TdnbdData) (i : Nat) (rest : List Nat)
    (typ offset length treq : Nat) : TdnbdData :=
  { setReq s i
      { treq := treq, typ := typ, handle := handleBytes s.globalId,
        reqFrom := offset, reqLen := length,
        headerQio := ⟨28, 0⟩, bodyQio := ⟨length, 0⟩, timeoutEvent := -1 } with
    globalId := s.globalId + 1,
    freeReqs := rest,
    pendingReqs := s.pendingReqs ++ [i],
    nrFreeCount := s.nrFreeCount - 1 }

/-- tdnbd_queue_request.  The empty-free-list case with nr_free_count ≠ 0 is
undefined behaviour in the C (it dereferences the list head sentinel); it is
unreachable under the engine invariant and modelled as a no-op. -/
def tdnbd_queue_request (s : TdnbdData) (typ offset length treq : Nat) : EngineOut :=
  if s.nrFreeCount = 0 then ⟨s, -ebusy, [], []⟩
  else if s.closed = 3 then ⟨s, -etimedout, [(treq, -etimedout)], []⟩
  else
    match s.freeReqs with
    | [] => ⟨s, 0, [], []⟩
    | i :: rest =>
      ⟨if (queueFill s i rest typ offset length treq).writerEventId < 0 then
          enable_write_queue (queueFill s i rest typ offset length treq)
        else queueFill s i rest typ offset length treq, 0, [], []⟩

/-- __cancel_req on one slot: unregister its timeout event if registered and
complete its upstream with e.  Returns the updated slot, the unregister calls
and the completion. -/
def __cancel_req (req : NbdRequest) (e : Int) : NbdRequest × List Int × (Nat × Int) :=
  if 0 ≤ req.timeoutEvent then
    ({ req with timeoutEvent := -1 }, [req.timeoutEvent], (req.treq, e))
  else (req, [], (req.treq, e))

/-- __cancel_req over a whole list of slots, in list order. -/
def cancelList (e : Int) : List Nat → (Nat → NbdRequest) →
    (Nat → NbdRequest) × List Int × List (Nat × Int)
  | [], reqs => (reqs, [], [])
  | i :: rest, reqs =>
    let c := __cancel_req (reqs i) e
    let r := cancelList e rest (Function.update reqs i c.1)
    (r.1, c.2.1 ++ r.2.1, c.2.2 :: r.2.2)

/-- tdnbd_disable: unregister the writer and reader events, cancel every slot
on sent_reqs and then on pending_reqs with errno e, set closed = 3.  The
lists themselves are not modified.  Returns (state, completions, unregister
calls). -/
def tdnbd_disable (s : TdnbdData) (e : Int) : TdnbdData × List (Nat × Int) × List Int :=
  let r1 := cancelList e s.sentReqs s.requests
  let r2 := cancelList e s.pendingReqs r1.1
  ({ s with requests := r2.1, closed := 3 },
   r1.2.2 ++ r2.2.2,
   [s.writerEventId, s.readerEventId] ++ r1.2.1 ++ r2.2.1)

/-- tdnbd_write_some on the header of slot i, recording the new cursor. -/
def writerWriteHeader (s : TdnbdData) (i : Nat) (evs : List SendRes) : TdnbdData × Int :=
  let req := s.requests i
  let o := tdnbd_write_some req.headerQio evs
  (setReq s i { req with headerQio := ⟨req.headerQio.len, o.soFar⟩ }, o.ret)

/-- tdnbd_write_some on the body of slot i, recording the new cursor. -/
def writerWriteBody (s : TdnbdData) (i : Nat) (evs : List SendRes) : TdnbdData × Int :=
  let req := s.requests i
  let o := tdnbd_write_some req.bodyQio evs
  (setReq s i { req with bodyQio := ⟨req.bodyQio.len, o.soFar⟩ }, o.ret)

/-- The DISC case of the writer walk: list_move the slot to the head of
free_reqs (list_move removes the node from whichever list holds it and
prepends to the target), bump nr_free_count and set closed = 2. -/
def moveToFreeDisc (s : TdnbdData) (i : Nat) : TdnbdData :=
  { s with pendingReqs := s.pendingReqs.erase i,
           freeReqs := i :: s.freeReqs.erase i,
           sentReqs := s.sentReqs.erase i,
           nrFreeCount := s.nrFreeCount + 1,
           closed := 2 }

/-- The fully-sent case of the writer walk: list_move the slot to the head of
sent_reqs. -/
def moveToSent (s : TdnbdData) (i : Nat) : TdnbdData :=
  { s with pendingReqs := s.pendingReqs.erase i,
           sentReqs := i :: s.sentReqs.erase i,
           freeReqs := s.freeReqs.erase i }

/-- After the pending walk drains: disable the write queue, and if a DISC
just went out (closed == 2) run the full disable with EIO. -/
def writerPost (s : TdnbdData) : EngineOut :=
  if (disable_write_queue s).1.closed = 2 then
    ⟨(tdnbd_disable (disable_write_queue s).1 eio).1, 0,
     (tdnbd_disable (disable_write_queue s).1 eio).2.1,
     (disable_write_queue s).2 ++ (tdnbd_disable (disable_write_queue s).1 eio).2.2⟩
  else ⟨(disable_write_queue s).1, 0, [], (disable_write_queue s).2⟩

/-- The pending-list walk of tdnbd_writer_cb.  The first argument is the list
of slots still to visit; it always equals the state's pendingReqs.  The
oracle provides one send-event list per tdnbd_write_some call.  A WRITE slot
also sends its body; a write_some result > 0 (would block) stops the whole
callback; a DISC that left the queue goes back to free_reqs with closed = 2,
anything else goes to sent_reqs.  A negative write_some result falls through
exactly as in the C, which only tests for > 0. -/
def tdnbd_writer_cb_loop : List Nat → TdnbdData → List (List SendRes) → EngineOut
  | [], s, _ => writerPost s
  | i :: rest, s, oracle =>
    if 0 < (writerWriteHeader s i (oracle.headD [])).2 then
      ⟨(writerWriteHeader s i (oracle.headD [])).1, 0, [], []⟩
    else if (s.requests i).typ = TAPDISK_NBD_CMD_WRITE then
      if 0 < (writerWriteBody (writerWriteHeader s i (oracle.headD [])).1 i
          (oracle.tail.headD [])).2 then
        ⟨(writerWriteBody (writerWriteHeader s i (oracle.headD [])).1 i
          (oracle.tail.headD [])).1, 0, [], []⟩
      else
        tdnbd_writer_cb_loop rest
          (moveToSent (writerWriteBody (writerWriteHeader s i (oracle.headD [])).1 i
            (oracle.tail.headD [])).1 i) oracle.tail.tail
    else if (s.requests i).typ = TAPDISK_NBD_CMD_DISC then
      tdnbd_writer_cb_loop rest
        (moveToFreeDisc (writerWriteHeader s i (oracle.headD [])).1 i) oracle.tail
    else
      tdnbd_writer_cb_loop rest
        (moveToSent (writerWriteHeader s i (oracle.headD [])).1 i) oracle.tail

def tdnbd_writer_cb (s : TdnbdData) (oracle : List (List SendRes)) : EngineOut :=
  tdnbd_writer_cb_loop s.pendingReqs s oracle

/-- The bookkeeping tail of tdnbd_reader_cb once a reply is fully handled:
move the slot to free_reqs, bump nr_free_count, reset the reply cursor,
unregister the slot's timeout event if registered, clear curr_reply_req. -/
def readerFinish (s : TdnbdData) (i : Nat) (comps : List (Nat × Int)) : EngineOut :=
  let unregs := if 0 ≤ (s.requests i).timeoutEvent then [(s.requests i).timeoutEvent] else []
  ⟨{ s with
      freeReqs := i :: s.freeReqs.erase i,
      sentReqs := s.sentReqs.erase i,
      pendingReqs := s.pendingReqs.erase i,
      nrFreeCount := s.nrFreeCount + 1,
      curReplyQio := ⟨s.curReplyQio.len, 0⟩,
      currReplyReq := none }, 0, comps, unregs⟩

/-- A reader-callback path that ends in tdnbd_disable(prv, EIO). -/
def readerDisable (s : TdnbdData) : EngineOut :=
  let d := tdnbd_disable s eio
  ⟨d.1, 0, d.2.1, d.2.2⟩

/-- Locate the request the completed reply belongs to: the already-matched
curr_reply_req if there is one, else the first sent slot whose stored handle
bytes equal the reply's handle bytes. -/
def readerFind (s : TdnbdData) : Option Nat :=
  match s.currReplyReq with
  | some i => some i
  | none =>
    s.sentReqs.find? fun i => (s.requests i).handle == s.currentReply.handle

/-- Record the matched request: prv->curr_reply_req = pos. -/
def readerMatch (s : TdnbdData) (i : Nat) : TdnbdData :=
  { s with currReplyReq := some i }

/-- tdnbd_read_some on the body of slot i, recording the new cursor. -/
def readerBodyAdvance (s : TdnbdData) (i : Nat) (evs : List SendRes) : TdnbdData :=
  setReq s i
    { s.requests i with
      bodyQio := ⟨(s.requests i).bodyQio.len,
                  (tdnbd_read_some (s.requests i).bodyQio evs).soFar⟩ }

/-- The dispatch on the matched request's recorded type, after curr_reply_req
has been set.  READ continues reading the body; WRITE completes immediately;
in the unknown-type default branch the C sets a local do_disable flag but
returns before the bookkeeping and before the deferred disable, so that
branch changes nothing beyond curr_reply_req having been matched. -/
def readerDispatch (s : TdnbdData) (i : Nat) (bodyEvs : List SendRes) : EngineOut :=
  if (s.requests i).typ = TAPDISK_NBD_CMD_READ then
    if (tdnbd_read_some (s.requests i).bodyQio bodyEvs).ret < 0 then
      readerDisable (readerBodyAdvance (readerMatch s i) i bodyEvs)
    else if 0 < (tdnbd_read_some (s.requests i).bodyQio bodyEvs).ret then
      ⟨readerBodyAdvance (readerMatch s i) i bodyEvs, 0, [], []⟩
    else
      readerFinish (readerBodyAdvance (readerMatch s i) i bodyEvs) i
        [((s.requests i).treq, 0)]
  else if (s.requests i).typ = TAPDISK_NBD_CMD_WRITE then
    readerFinish (readerMatch s i) i [((s.requests i).treq, 0)]
  else
    ⟨readerMatch s i, 0, [], []⟩

/-- The header-read stage of tdnbd_reader_cb: record the advanced reply
cursor, and once the 16 bytes complete in this callback, the reply header
they decode to. -/
def readerAdvanceHdr (s : TdnbdData) (hdrEvs : List SendRes) (rep : NbdReply) :
    TdnbdData :=
  { s with
    curReplyQio := ⟨s.curReplyQio.len, (tdnbd_read_some s.curReplyQio hdrEvs).soFar⟩,
    currentReply :=
      if s.curReplyQio.soFar < s.curReplyQio.len
          ∧ (tdnbd_read_some s.curReplyQio hdrEvs).ret = 0 then rep
      else s.currentReply }

/-- tdnbd_reader_cb.  hdrEvs drives the header read, rep is the reply header
the accumulated 16 bytes decode to once they complete, bodyEvs drives a READ
body read. -/
def tdnbd_reader_cb (s : TdnbdData) (hdrEvs : List SendRes) (rep : NbdReply)
    (bodyEvs : List SendRes) : EngineOut :=
  if (tdnbd_read_some s.curReplyQio hdrEvs).ret < 0 then
    readerDisable (readerAdvanceHdr s hdrEvs rep)
  else if 0 < (tdnbd_read_some s.curReplyQio hdrEvs).ret then
    ⟨readerAdvanceHdr s hdrEvs rep, 0, [], []⟩
  else if (readerAdvanceHdr s hdrEvs rep).currentReply.error ≠ 0 then
    readerDisable (readerAdvanceHdr s hdrEvs rep)
  else
    match readerFind (readerAdvanceHdr s hdrEvs rep) with
    | none => readerDisable (readerAdvanceHdr s hdrEvs rep)
    | some i => readerDispatch (readerAdvanceHdr s hdrEvs rep) i bodyEvs

/-- The engine state tdnbd_open sets up for a pool of n slots: every slot on
free_reqs (list_add prepends, so the list holds n-1 .. 0), nr_free_count = n,
the reply staging area empty with len 16, the reader event registered, closed
= 0.  The process-wide global_id is taken at its initial 0. -/
def initState (n : Nat) : TdnbdData :=
  { writerEventId := -1,
    sentReqs := [],
    pendingReqs := [],
    freeReqs := (List.range n).reverse,
    requests := fun _ => ⟨0, 0, List.replicate 8 0, 0, 0, ⟨28, 0⟩, ⟨0, 0⟩, -1⟩,
    nrFreeCount := n,
    readerEventId := 0,
    currentReply := ⟨0, List.replicate 8 0⟩,
    curReplyQio := ⟨16, 0⟩,
    currReplyReq := none,
    closed := 0,
    globalId := 0,
    schedNext := 1 }

/-- Connection states reachable from open by any sequence of engine
operations. -/
inductive Reachable (n : Nat) : TdnbdData → Prop where
  | init : Reachable n (initState n)
  | queue : ∀ (s : TdnbdData) (typ offset length treq : Nat), Reachable n s →
      Reachable n (tdnbd_queue_request s typ offset length treq).state
  | writer : ∀ (s : TdnbdData) (oracle : List (List SendRes)), Reachable n s →
      Reachable n (tdnbd_writer_cb s oracle).state
  | reader : ∀ (s : TdnbdData) (hdrEvs : List SendRes) (rep : NbdReply)
      (bodyEvs : List SendRes), Reachable n s →
      Reachable n (tdnbd_reader_cb s hdrEvs rep bodyEvs).state

/-- The list-accounting part of the engine invariant: the three lists
partition the slot pool, nr_free_count counts the free list, and a matched
curr_reply_req always sits on sent_reqs. -/
def CoreInv (n : Nat) (s : TdnbdData) : Prop :=
  (s.freeReqs ++ s.pendingReqs ++ s.sentReqs).Perm (List.range n)
  ∧ s.nrFreeCount = s.freeReqs.length
  ∧ ∀ i, s.currReplyReq = some i → i ∈ s.sentReqs

/-- Full engine invariant: accounting plus the writer-registration law. -/
def EngineInv (n : Nat) (s : TdnbdData) : Prop :=
  CoreInv n s ∧ (0 ≤ s.writerEventId ↔ s.pendingReqs ≠ [])

/-- One fd-stash slot; the id is the stored byte string (NUL-free,
safe_strncpy keeps at most 39 bytes of it). -/
structure PassedFd where
  id : List Nat
  fd : Int
deriving DecidableEq

/-- tdnbd_stash_passed_fd over the slot table: scan for the first slot that
is unused (fd == -1) or whose id agrees with msg on the first 39 bytes
(strncmp with n = 39); if none, close fd and store nothing; otherwise close
the chosen slot's fd if it is open and store the pair.  Returns the new table
and the fds closed. -/
def tdnbd_stash_passed_fd (fd : Int) (msg : List Nat) :
    List PassedFd → List PassedFd × List Int
  | [] => ([], [fd])
  | slot :: rest =>
    if slot.fd = -1 ∨ msg.take 39 = slot.id.take 39 then
      (⟨msg.take 39, fd⟩ :: rest, if -1 < slot.fd then [slot.fd] else [])
    else
      let r := tdnbd_stash_passed_fd fd msg rest
      (slot :: r.1, r.2)

/-- Modelled from the claim's words: store into the first slot whose stored
id prefix-matches msg, and only if no slot matches, into the first slot whose
fd is -1; close the chosen slot's open fd first. -/
def stashSpecChoice (fd : Int) (msg : List Nat) (tbl : List PassedFd) :
    List PassedFd × List Int :=
  match tbl.findIdx? (fun slot => msg.take 39 == slot.id.take 39) with
  | some i =>
    (tbl.set i ⟨msg.take 39, fd⟩,
     if -1 < (tbl.getD i ⟨[], -1⟩).fd then [(tbl.getD i ⟨[], -1⟩).fd] else [])
  | none =>
    match tbl.findIdx? (fun slot => slot.fd == -1) with
    | some i =>
      (tbl.set i ⟨msg.take 39, fd⟩,
       if -1 < (tbl.getD i ⟨[], -1⟩).fd then [(tbl.getD i ⟨[], -1⟩).fd] else [])
    | none => (tbl, [fd])

/-- A sent slot holding an unknown command type 3 with its reply header about
to arrive: the failing input for the unknown-reply-type claim. -/
def c1req : NbdRequest :=
  ⟨7, 3, [116, 100, 48, 48, 48, 48, 49, 0], 0, 0, ⟨28, 28⟩, ⟨0, 0⟩, -1⟩

def c1state : TdnbdData :=
  { initState 2 with
    sentReqs := [0],
    freeReqs := [1],
    nrFreeCount := 1,
    requests := Function.update (initState 2).requests 0 c1req }

/-- A dead connection with an empty free list, reached by exhausting the pool
and then failing the reader: queue the one slot of a 1-slot pool, then a recv
failure in the reader callback disables the connection. -/
def c4state : TdnbdData :=
  (tdnbd_reader_cb (tdnbd_queue_request (initState 1) 0 0 512 9).state
    [SendRes.fail] ⟨0, List.replicate 8 0⟩ []).state

/-- A dead connection whose free list is full: disabling a fresh 2-slot
connection. -/
def c4stateB : TdnbdData :=
  (tdnbd_disable (initState 2) eio).1

/-- The state the counter 65535 is consumed from: a fresh 2-slot connection
whose process-wide counter has advanced to 65535. -/
def c5state : TdnbdData :=
  { initState 2 with globalId := 65535 }

/-- A state after one successful enqueue on a 2-slot pool. -/
def c2state : TdnbdData :=
  (tdnbd_queue_request (initState 2) 0 0 512 7).state

/-- A state after one successful enqueue on a 3-slot pool. -/
def c7state : TdnbdData :=
  (tdnbd_queue_request (initState 3) 1 0 512 8).state

/-- The stash table for the slot-choice counterexample: slot 0 unused, slot 1
open with id "foo", the rest unused. -/
def c6tbl : List PassedFd :=
  ⟨[], -1⟩ :: ⟨[102, 111, 111], 5⟩ :: List.replicate 8 ⟨[], -1⟩

@[simp] theorem setReq_sentReqs (s : TdnbdData) (i : Nat) (r : NbdRequest) :
    (setReq s i r).sentReqs = s.sentReqs := rfl

@[simp] theorem setReq_pendingReqs (s : TdnbdData) (i : Nat) (r : NbdRequest) :
    (setReq s i r).pendingReqs = s.pendingReqs := rfl

@[simp] theorem setReq_freeReqs (s : TdnbdData) (i : Nat) (r : NbdRequest) :
    (setReq s i r).freeReqs = s.freeReqs := rfl

@[simp] theorem setReq_nrFreeCount (s : TdnbdData) (i : Nat) (r : NbdRequest) :
    (setReq s i r).nrFreeCount = s.nrFreeCount := rfl

@[simp] theorem setReq_currReplyReq (s : TdnbdData) (i : Nat) (r : NbdRequest) :
    (setReq s i r).currReplyReq = s.currReplyReq := rfl

@[simp] theorem setReq_writerEventId (s : TdnbdData) (i : Nat) (r : NbdRequest) :
    (setReq s i r).writerEventId = s.writerEventId := rfl

@[simp] theorem writerWriteHeader_sentReqs (s : TdnbdData) (i : Nat) (evs : List SendRes) :
    (writerWriteHeader s i evs).1.sentReqs = s.sentReqs := rfl

@[simp] theorem writerWriteHeader_pendingReqs (s : TdnbdData) (i : Nat) (evs : List SendRes) :
    (writerWriteHeader s i evs).1.pendingReqs = s.pendingReqs := rfl

@[simp] theorem writerWriteHeader_freeReqs (s : TdnbdData) (i : Nat) (evs : List SendRes) :
    (writerWriteHeader s i evs).1.freeReqs = s.freeReqs := rfl

@[simp] theorem writerWriteHeader_nrFreeCount (s : TdnbdData) (i : Nat) (evs : List SendRes) :
    (writerWriteHeader s i evs).1.nrFreeCount = s.nrFreeCount := rfl

@[simp] theorem writerWriteHeader_currReplyReq (s : TdnbdData) (i : Nat) (evs : List SendRes) :
    (writerWriteHeader s i evs).1.currReplyReq = s.currReplyReq := rfl

@[simp] theorem writerWriteHeader_writerEventId (s : TdnbdData) (i : Nat) (evs : List SendRes) :
    (writerWriteHeader s i evs).1.writerEventId = s.writerEventId := rfl

@[simp] theorem writerWriteBody_sentReqs (s : TdnbdData) (i : Nat) (evs : List SendRes) :
    (writerWriteBody s i evs).1.sentReqs = s.sentReqs := rfl

@[simp] theorem writerWriteBody_pendingReqs (s : TdnbdData) (i : Nat) (evs : List SendRes) :
    (writerWriteBody s i evs).1.pendingReqs = s.pendingReqs := rfl

@[simp] theorem writerWriteBody_freeReqs (s : TdnbdData) (i : Nat) (evs : List SendRes) :
    (writerWriteBody s i evs).1.freeReqs = s.freeReqs := rfl

@[simp] theorem writerWriteBody_nrFreeCount (s : TdnbdData) (i : Nat) (evs : List SendRes) :
    (writerWriteBody s i evs).1.nrFreeCount = s.nrFreeCount := rfl

@[simp] theorem writerWriteBody_currReplyReq (s : TdnbdData) (i : Nat) (evs : List SendRes) :
    (writerWriteBody s i evs).1.currReplyReq = s.currReplyReq := rfl

@[simp] theorem writerWriteBody_writerEventId (s : TdnbdData) (i : Nat) (evs : List SendRes) :
    (writerWriteBody s i evs).1.writerEventId = s.writerEventId := rfl

@[simp] theorem moveToFreeDisc_sentReqs (s : TdnbdData) (i : Nat) :
    (moveToFreeDisc s i).sentReqs = s.sentReqs.erase i := rfl

@[simp] theorem moveToFreeDisc_pendingReqs (s : TdnbdData) (i : Nat) :
    (moveToFreeDisc s i).pendingReqs = s.pendingReqs.erase i := rfl

@[simp] theorem moveToFreeDisc_freeReqs (s : TdnbdData) (i : Nat) :
    (moveToFreeDisc s i).freeReqs = i :: s.freeReqs.erase i := rfl

@[simp] theorem moveToFreeDisc_nrFreeCount (s : TdnbdData) (i : Nat) :
    (moveToFreeDisc s i).nrFreeCount = s.nrFreeCount + 1 := rfl

@[simp] theorem moveToFreeDisc_currReplyReq (s : TdnbdData) (i : Nat) :
    (moveToFreeDisc s i).currReplyReq = s.currReplyReq := rfl

@[simp] theorem moveToFreeDisc_writerEventId (s : TdnbdData) (i : Nat) :
    (moveToFreeDisc s i).writerEventId = s.writerEventId := rfl

@[simp] theorem moveToSent_sentReqs (s : TdnbdData) (i : Nat) :
    (moveToSent s i).sentReqs = i :: s.sentReqs.erase i := rfl

@[simp] theorem moveToSent_pendingReqs (s : TdnbdData) (i : Nat) :
    (moveToSent s i).pendingReqs = s.pendingReqs.erase i := rfl

@[simp] theorem moveToSent_freeReqs (s : TdnbdData) (i : Nat) :
    (moveToSent s i).freeReqs = s.freeReqs.erase i := rfl

@[simp] theorem moveToSent_nrFreeCount (s : TdnbdData) (i : Nat) :
    (moveToSent s i).nrFreeCount = s.nrFreeCount := rfl

@[simp] theorem moveToSent_currReplyReq (s : TdnbdData) (i : Nat) :
    (moveToSent s i).currReplyReq = s.currReplyReq := rfl

@[simp] theorem moveToSent_writerEventId (s : TdnbdData) (i : Nat) :
    (moveToSent s i).writerEventId = s.writerEventId := rfl

@[simp] theorem tdnbd_disable_sentReqs (s : TdnbdData) (e : Int) :
    (tdnbd_disable s e).1.sentReqs = s.sentReqs := rfl

@[simp] theorem tdnbd_disable_pendingReqs (s : TdnbdData) (e : Int) :
    (tdnbd_disable s e).1.pendingReqs = s.pendingReqs := rfl

@[simp] theorem tdnbd_disable_freeReqs (s : TdnbdData) (e : Int) :
    (tdnbd_disable s e).1.freeReqs = s.freeReqs := rfl

@[simp] theorem tdnbd_disable_nrFreeCount (s : TdnbdData) (e : Int) :
    (tdnbd_disable s e).1.nrFreeCount = s.nrFreeCount := rfl

@[simp] theorem tdnbd_disable_currReplyReq (s : TdnbdData) (e : Int) :
    (tdnbd_disable s e).1.currReplyReq = s.currReplyReq := rfl

@[simp] theorem tdnbd_disable_writerEventId (s : TdnbdData) (e : Int) :
    (tdnbd_disable s e).1.writerEventId = s.writerEventId := rfl

@[simp] theorem tdnbd_disable_closed (s : TdnbdData) (e : Int) :
    (tdnbd_disable s e).1.closed = 3 := rfl

/-- C1: when the reader callback has a complete 16-byte reply header matched
to a sent request whose recorded command type is 3 (neither READ nor WRITE),
the code returns at once: the slot stays on sent_reqs, the free list,
nr_free_count and closed are unchanged, the reply cursor stays at 16, the
matched-request pointer stays set, and no completion, no unregistration and
no disable happens — contradicting the claimed bookkeeping-then-disable. -/
theorem c1_reader_unknown_type_eval :
    (tdnbd_reader_cb c1state [SendRes.ret 16]
        ⟨0, [116, 100, 48, 48, 48, 48, 49, 0]⟩ []).state.sentReqs = [0]
    ∧ (tdnbd_reader_cb c1state [SendRes.ret 16]
        ⟨0, [116, 100, 48, 48, 48, 48, 49, 0]⟩ []).state.freeReqs = [1]
    ∧ (tdnbd_reader_cb c1state [SendRes.ret 16]
        ⟨0, [116, 100, 48, 48, 48, 48, 49, 0]⟩ []).state.nrFreeCount = 1
    ∧ (tdnbd_reader_cb c1state [SendRes.ret 16]
        ⟨0, [116, 100, 48, 48, 48, 48, 49, 0]⟩ []).state.curReplyQio.soFar = 16
    ∧ (tdnbd_reader_cb c1state [SendRes.ret 16]
        ⟨0, [116, 100, 48, 48, 48, 48, 49, 0]⟩ []).state.currReplyReq = some 0
    ∧ (tdnbd_reader_cb c1state [SendRes.ret 16]
        ⟨0, [116, 100, 48, 48, 48, 48, 49, 0]⟩ []).state.closed = 0
    ∧ (tdnbd_reader_cb c1state [SendRes.ret 16]
        ⟨0, [116, 100, 48, 48, 48, 48, 49, 0]⟩ []).comps = []
    ∧ (tdnbd_reader_cb c1state [SendRes.ret 16]
        ⟨0, [116, 100, 48, 48, 48, 48, 49, 0]⟩ []).unregs = [] := by
  decide

/-- C4 counterexample: in the reachable dead state c4state (closed = 3 and
nr_free_count = 0), queue_request returns -EBUSY and performs no completion
at all — not the claimed immediate ETIMEDOUT completion regardless of
nr_free. -/
theorem c4_counterexample :
    c4state.closed = 3 ∧ c4state.nrFreeCount = 0
    ∧ (tdnbd_queue_request c4state 0 0 0 11).ret = -ebusy
    ∧ (tdnbd_queue_request c4state 0 0 0 11).comps = [] := by
  decide

/-- C5 counterexample: at counter value 65535 the code writes the handle
"td00000" (because it reduces the counter modulo 0xffff = 65535), while the
claimed modulo-2^20 handle would be "td0ffff"; the two differ. -/
theorem c5_counterexample :
    ((tdnbd_queue_request c5state 0 0 512 7).state.requests 1).handle
        = [116, 100, 48, 48, 48, 48, 48, 0]
    ∧ handleBytesClaim 65535 = [116, 100, 48, 102, 102, 102, 102, 0]
    ∧ ((tdnbd_queue_request c5state 0 0 512 7).state.requests 1).handle
        ≠ handleBytesClaim 65535
    ∧ (tdnbd_queue_request c5state 0 0 512 7).state.globalId = 65536 := by
  decide

/-- C6 counterexample: on a table whose slot 0 is unused and whose slot 1
holds an open fd with the matching id "foo", the code stores the new fd into
slot 0 (the first slot that is unused or matching, in index order), while
the claimed choice — first matching slot, else first unused — would store it
into slot 1. -/
theorem c6_counterexample :
    tdnbd_stash_passed_fd 7 [102, 111, 111] c6tbl
      ≠ stashSpecChoice 7 [102, 111, 111] c6tbl
    ∧ ((tdnbd_stash_passed_fd 7 [102, 111, 111] c6tbl).1.map
        (fun slot => slot.fd)).take 2 = [7, 5]
    ∧ ((stashSpecChoice 7 [102, 111, 111] c6tbl).1.map
        (fun slot => slot.fd)).take 2 = [-1, 7] := by
  decide

theorem write_aux_done (left : Int) (soFar : Nat) (evs : List SendRes) (h : left ≤ 0) :
    tdnbd_write_some_aux left soFar evs = ⟨left, soFar, 0⟩ := by
  cases evs with
  | nil => rfl
  | cons e rest =>
    cases e with
    | again => simp [tdnbd_write_some_aux, h]
    | fail => simp [tdnbd_write_some_aux, h]
    | ret n =>
      cases n with
      | zero => simp [tdnbd_write_some_aux, h]
      | succ m => simp [tdnbd_write_some_aux, h]

theorem read_aux_eq_write_aux :
    ∀ (evs : List SendRes) (left : Int) (soFar : Nat),
    tdnbd_read_some_aux left soFar evs = tdnbd_write_some_aux left soFar evs := by
  intro evs
  induction evs with
  | nil => intro left soFar; rfl
  | cons e rest ih =>
    intro left soFar
    cases e with
    | again => rfl
    | fail => rfl
    | ret n =>
      cases n with
      | zero => rfl
      | succ m =>
        simp only [tdnbd_read_some_aux, tdnbd_write_some_aux, ih]

theorem write_aux_complete :
    ∀ (ns : List Nat) (left : Int) (soFar : Nat) (evs : List SendRes),
    (∀ x ∈ ns, 0 < x) → ((ns.sum : Int) = left) →
    tdnbd_write_some_aux left soFar (ns.map SendRes.ret ++ evs)
      = ⟨0, soFar + ns.sum, ns.length⟩ := by
  intro ns
  induction ns with
  | nil =>
    intro left soFar evs _ hsum
    have hz : left = 0 := by simpa using hsum.symm
    subst hz
    simpa using write_aux_done 0 soFar evs le_rfl
  | cons n ns ih =>
    intro left soFar evs hpos hsum
    obtain ⟨m, rfl⟩ : ∃ m, n = m + 1 := by
      have := hpos n (by simp)
      exact ⟨n - 1, by omega⟩
    rw [List.sum_cons] at hsum
    have hle : ¬ left ≤ 0 := by omega
    simp only [List.map_cons, List.cons_append, tdnbd_write_some_aux, if_neg hle,
      List.append_eq]
    rw [ih (left - ((m : Int) + 1)) (soFar + (m + 1)) evs
      (fun x hx => hpos x (by simp [hx])) (by omega)]
    simp only [List.sum_cons, List.length_cons, XferOut.mk.injEq, true_and, and_true]
    omega

theorem write_aux_partial :
    ∀ (ns : List Nat) (left : Int) (soFar : Nat) (evs : List SendRes),
    (∀ x ∈ ns, 0 < x) → ((ns.sum : Int) < left) →
    tdnbd_write_some_aux left soFar (ns.map SendRes.ret ++ SendRes.again :: evs)
      = ⟨left - ns.sum, soFar + ns.sum, ns.length + 1⟩ := by
  intro ns
  induction ns with
  | nil =>
    intro left soFar evs _ hsum
    have hle : ¬ left ≤ 0 := by simp at hsum; omega
    simp [tdnbd_write_some_aux, if_neg hle]
  | cons n ns ih =>
    intro left soFar evs hpos hsum
    obtain ⟨m, rfl⟩ : ∃ m, n = m + 1 := by
      have := hpos n (by simp)
      exact ⟨n - 1, by omega⟩
    rw [List.sum_cons] at hsum
    have hle : ¬ left ≤ 0 := by omega
    simp only [List.map_cons, List.cons_append, tdnbd_write_some_aux, if_neg hle,
      List.append_eq]
    rw [ih (left - ((m : Int) + 1)) (soFar + (m + 1)) evs
      (fun x hx => hpos x (by simp [hx])) (by omega)]
    simp only [List.sum_cons, List.length_cons, XferOut.mk.injEq, true_and, and_true]
    omega

/-- C9: tdnbd_write_some and tdnbd_read_some on a buffer-with-cursor: with
len == so_far they return 0 making no send/recv call; on EAGAIN/EWOULDBLOCK
they return the positive remaining count; when the syscall returns 0 (peer
shutdown) or fails with any other errno they return the negative value -1;
over any run of positive partial transfers they advance so_far by exactly
the bytes transferred, returning 0 once len bytes are complete. -/
theorem c9_transfer :
    (∀ (q : NbdQio) (evs : List SendRes), q.len = q.soFar →
      tdnbd_write_some q evs = ⟨0, q.soFar, 0⟩ ∧ tdnbd_read_some q evs = ⟨0, q.soFar, 0⟩)
    ∧ (∀ (left : Int) (soFar : Nat) (evs : List SendRes), 0 < left →
      tdnbd_write_some_aux left soFar (SendRes.again :: evs) = ⟨left, soFar, 1⟩
      ∧ tdnbd_read_some_aux left soFar (SendRes.again :: evs) = ⟨left, soFar, 1⟩)
    ∧ (∀ (left : Int) (soFar : Nat) (evs : List SendRes), 0 < left →
      tdnbd_write_some_aux left soFar (SendRes.fail :: evs) = ⟨-1, soFar, 1⟩
      ∧ tdnbd_write_some_aux left soFar (SendRes.ret 0 :: evs) = ⟨-1, soFar, 1⟩
      ∧ tdnbd_read_some_aux left soFar (SendRes.fail :: evs) = ⟨-1, soFar, 1⟩
      ∧ tdnbd_read_some_aux left soFar (SendRes.ret 0 :: evs) = ⟨-1, soFar, 1⟩)
    ∧ (∀ (ns : List Nat) (q : NbdQio), (∀ x ∈ ns, 0 < x) → ns.sum + q.soFar = q.len →
      tdnbd_write_some q (ns.map SendRes.ret) = ⟨0, q.len, ns.length⟩
      ∧ tdnbd_read_some q (ns.map SendRes.ret) = ⟨0, q.len, ns.length⟩)
    ∧ (∀ (ns : List Nat) (q : NbdQio) (evs : List SendRes), (∀ x ∈ ns, 0 < x) →
      ns.sum + q.soFar < q.len →
      tdnbd_write_some q (ns.map SendRes.ret ++ SendRes.again :: evs)
        = ⟨(q.len : Int) - (q.soFar : Int) - (ns.sum : Int), q.soFar + ns.sum, ns.length + 1⟩
      ∧ tdnbd_read_some q (ns.map SendRes.ret ++ SendRes.again :: evs)
        = ⟨(q.len : Int) - (q.soFar : Int) - (ns.sum : Int), q.soFar + ns.sum, ns.length + 1⟩) := by
  refine ⟨?_, ?_, ?_, ?_, ?_⟩
  · intro q evs h
    have hz : (q.len : Int) - (q.soFar : Int) = 0 := by rw [h]; ring
    constructor
    · rw [tdnbd_write_some, hz]
      exact write_aux_done 0 q.soFar evs le_rfl
    · rw [tdnbd_read_some, hz, read_aux_eq_write_aux]
      exact write_aux_done 0 q.soFar evs le_rfl
  · intro left soFar evs h
    have hle : ¬ left ≤ 0 := by omega
    constructor
    · simp [tdnbd_write_some_aux, if_neg hle]
    · simp [tdnbd_read_some_aux, if_neg hle]
  · intro left soFar evs h
    have hle : ¬ left ≤ 0 := by omega
    refine ⟨?_, ?_, ?_, ?_⟩ <;>
      simp [tdnbd_write_some_aux, tdnbd_read_some_aux, if_neg hle]
  · intro ns q hpos hsum
    have hs : (ns.sum : Int) = (q.len : Int) - (q.soFar : Int) := by omega
    have hmain := write_aux_complete ns ((q.len : Int) - (q.soFar : Int)) q.soFar [] hpos hs
    rw [List.append_nil] at hmain
    have hfin : q.soFar + ns.sum = q.len := by omega
    constructor
    · rw [tdnbd_write_some, hmain, hfin]
    · rw [tdnbd_read_some, read_aux_eq_write_aux, hmain, hfin]
  · intro ns q evs hpos hsum
    have hs : (ns.sum : Int) < (q.len : Int) - (q.soFar : Int) := by omega
    have hmain := write_aux_partial ns ((q.len : Int) - (q.soFar : Int)) q.soFar evs hpos hs
    constructor
    · rw [tdnbd_write_some, hmain]
    · rw [tdnbd_read_some, read_aux_eq_write_aux, hmain]

theorem c9_transfer_witness :
    tdnbd_write_some ⟨10, 2⟩
        ([3, 4].map SendRes.ret ++ SendRes.again :: []) = ⟨1, 9, 3⟩
    ∧ tdnbd_read_some ⟨10, 2⟩
        ([3, 4].map SendRes.ret ++ SendRes.again :: []) = ⟨1, 9, 3⟩ := by
  have h := c9_transfer.2.2.2.2 [3, 4] ⟨10, 2⟩ [] (by decide) (by decide)
  simpa using h

/-- C10: the 124-byte pad drain decreases its remaining count only by the rc
each wait_recv returns: a 0-byte recv (peer closed) leaves the count
unchanged and the loop iterates again, an all-zero recv stream of any length
never completes the drain, and the loop is guaranteed to finish exactly when
every recv during the drain returns a positive byte count or a negative
error (then at most as many iterations as remaining bytes are needed). -/
theorem c10_drain :
    (∀ (pad : Int) (evs : List WaitRecvRes) (v : Nat), 0 < pad →
      drain_pad_bytes pad (⟨0, v⟩ :: evs) = drain_pad_bytes pad evs)
    ∧ (∀ (pad : Int) (k : Nat) (v : Nat), 0 < pad →
      drain_pad_bytes pad (List.replicate k ⟨0, v⟩) = none)
    ∧ (∀ (evs : List WaitRecvRes) (pad : Int),
      (∀ ev ∈ evs, ev.rc ≠ 0) → pad ≤ (evs.length : Int) →
      (drain_pad_bytes pad evs).isSome = true) := by
  have hstep : ∀ (pad : Int) (evs : List WaitRecvRes) (v : Nat), 0 < pad →
      drain_pad_bytes pad (⟨0, v⟩ :: evs) = drain_pad_bytes pad evs := by
    intro pad evs v h
    rw [drain_pad_bytes]
    have h1 : ¬ pad ≤ 0 := by omega
    have h2 : ¬ ((⟨0, v⟩ : WaitRecvRes).rc < 0) := by simp
    rw [if_neg h1]
    simp only [if_neg h2, sub_zero]
  refine ⟨hstep, ?_, ?_⟩
  · intro pad k
    induction k with
    | zero =>
      intro v h
      rw [List.replicate_zero, drain_pad_bytes]
      have h1 : ¬ pad ≤ 0 := by omega
      rw [if_neg h1]
    | succ m ih =>
      intro v h
      rw [List.replicate_succ, hstep pad _ v h]
      exact ih v h
  · intro evs
    induction evs with
    | nil =>
      intro pad _ hlen
      rw [drain_pad_bytes]
      have h1 : pad ≤ 0 := by simpa using hlen
      rw [if_pos h1]
      rfl
    | cons ev rest ih =>
      intro pad hnz hlen
      rw [drain_pad_bytes]
      by_cases h1 : pad ≤ 0
      · rw [if_pos h1]; rfl
      · rw [if_neg h1]
        by_cases h2 : ev.rc < 0
        · rw [if_pos h2]; rfl
        · rw [if_neg h2]
          have hpos : 1 ≤ ev.rc := by
            have := hnz ev (by simp)
            omega
          refine ih (pad - ev.rc) (fun e he => hnz e (by simp [he])) ?_
          have : pad ≤ ((ev :: rest).length : Int) := hlen
          rw [List.length_cons] at this
          push_cast at this
          omega

theorem c10_drain_witness :
    (drain_pad_bytes 2 [⟨1, 0⟩, ⟨1, 0⟩]).isSome = true := by
  have h := c10_drain.2.2 [⟨1, 0⟩, ⟨1, 0⟩] 2 (by decide) (by decide)
  exact h

/-- C8: a successful handshake on either path that saw the server report a
64-bit export size S fills the driver info with size = S >> 9 sectors and
sector_size = 512; in particular S = 0x200000000 yields 16777216 sectors. -/
theorem c8_negotiate_size :
    (∀ (ev1 : WaitRecvRes) (rest : List WaitRecvRes) (info : TdDiskInfo),
      tdnbd_nbd_negotiate_old (ev1 :: rest) = some (.ok info) →
      info.size = ev1.v >>> 9 ∧ info.sectorSize = 512)
    ∧ (∀ (s1 s2 : Int) (ev : WaitRecvRes) (info : TdDiskInfo),
      negotiate_client_newstyle_options s1 s2 ev = .ok info →
      info.size = ev.v >>> 9 ∧ info.sectorSize = 512)
    ∧ tdnbd_nbd_negotiate_old [⟨8, 0x200000000⟩, ⟨4, 0⟩, ⟨124, 0⟩]
        = some (.ok ⟨16777216, 512, 0⟩) := by
  refine ⟨?_, ?_, by rfl⟩
  · intro ev1 rest info h
    rw [tdnbd_nbd_negotiate_old] at h
    split at h
    · simp at h
    · split at h
      · simp at h
      · cases rest with
        | nil => simp at h
        | cons ev2 evs2 =>
          simp only at h
          split at h
          · simp at h
          · split at h
            · simp at h
            · split at h
              · simp at h
              · simp at h
              · simp only [Option.some.injEq, Except.ok.injEq] at h
                subst h
                exact ⟨rfl, rfl⟩
  · intro s1 s2 ev info h
    rw [negotiate_client_newstyle_options] at h
    split at h
    · simp at h
    · split at h
      · simp at h
      · split at h
        · simp at h
        · simp only [Except.ok.injEq] at h
          subst h
          exact ⟨rfl, rfl⟩

theorem c8_negotiate_size_witness :
    (⟨16777216, 512, 0⟩ : TdDiskInfo).size = 0x200000000 >>> 9
    ∧ (⟨16777216, 512, 0⟩ : TdDiskInfo).sectorSize = 512 :=
  c8_negotiate_size.1 ⟨8, 0x200000000⟩ [⟨4, 0⟩, ⟨124, 0⟩] ⟨16777216, 512, 0⟩ (by rfl)

theorem cancel_req_treq (r : NbdRequest) (e : Int) :
    ((__cancel_req r e).1).treq = r.treq := by
  simp only [__cancel_req]
  split <;> rfl

theorem cancel_req_comp (r : NbdRequest) (e : Int) :
    (__cancel_req r e).2.2 = (r.treq, e) := by
  simp only [__cancel_req]
  split <;> rfl

theorem map_treq_congr (l : List Nat) (f g : Nat → NbdRequest) (e : Int)
    (h : ∀ j, (f j).treq = (g j).treq) :
    l.map (fun i => ((f i).treq, e)) = l.map (fun i => ((g i).treq, e)) := by
  induction l with
  | nil => rfl
  | cons a t ih =>
    simp only [List.map_cons, ih]
    rw [h a]

theorem cancelList_treq :
    ∀ (l : List Nat) (reqs : Nat → NbdRequest) (e : Int) (j : Nat),
    ((cancelList e l reqs).1 j).treq = (reqs j).treq := by
  intro l
  induction l with
  | nil => intro reqs e j; rfl
  | cons i rest ih =>
    intro reqs e j
    simp only [cancelList]
    rw [ih]
    by_cases h : j = i
    · subst h
      rw [Function.update_same, cancel_req_treq]
    · rw [Function.update_noteq h]

theorem cancelList_comps :
    ∀ (l : List Nat) (reqs : Nat → NbdRequest) (e : Int),
    (cancelList e l reqs).2.2 = l.map (fun i => ((reqs i).treq, e)) := by
  intro l
  induction l with
  | nil => intro reqs e; rfl
  | cons i rest ih =>
    intro reqs e
    simp only [cancelList, List.map_cons, List.cons.injEq]
    refine ⟨cancel_req_comp _ _, ?_⟩
    rw [ih]
    refine map_treq_congr rest _ _ e ?_
    intro j
    by_cases h : j = i
    · subst h
      rw [Function.update_same, cancel_req_treq]
    · rw [Function.update_noteq h]

/-- C3: tdnbd_disable(prv, e) emits unregistrations of both the writer and
reader events, completes the upstream of every slot on sent_reqs and then on
pending_reqs exactly once with error e, leaves the membership of all three
lists (and nr_free_count) unchanged, and sets closed = 3. -/
theorem c3_disable_cancels_all (prv : TdnbdData) (e : Int) :
    (tdnbd_disable prv e).1.freeReqs = prv.freeReqs
    ∧ (tdnbd_disable prv e).1.pendingReqs = prv.pendingReqs
    ∧ (tdnbd_disable prv e).1.sentReqs = prv.sentReqs
    ∧ (tdnbd_disable prv e).1.nrFreeCount = prv.nrFreeCount
    ∧ (tdnbd_disable prv e).1.closed = 3
    ∧ (tdnbd_disable prv e).2.1
        = (prv.sentReqs ++ prv.pendingReqs).map (fun i => ((prv.requests i).treq, e))
    ∧ prv.writerEventId ∈ (tdnbd_disable prv e).2.2
    ∧ prv.readerEventId ∈ (tdnbd_disable prv e).2.2 := by
  refine ⟨rfl, rfl, rfl, rfl, rfl, ?_, ?_, ?_⟩
  · show (cancelList e prv.sentReqs prv.requests).2.2
        ++ (cancelList e prv.pendingReqs (cancelList e prv.sentReqs prv.requests).1).2.2
      = (prv.sentReqs ++ prv.pendingReqs).map (fun i => ((prv.requests i).treq, e))
    rw [List.map_append, cancelList_comps, cancelList_comps]
    refine congrArg _ (map_treq_congr _ _ _ e ?_)
    intro j
    exact cancelList_treq prv.sentReqs prv.requests e j
  · simp [tdnbd_disable]
  · simp [tdnbd_disable]

@[simp] theorem enable_write_queue_requests (s : TdnbdData) :
    (enable_write_queue s).requests = s.requests := by
  simp only [enable_write_queue]
  split <;> rfl

@[simp] theorem enable_write_queue_globalId (s : TdnbdData) :
    (enable_write_queue s).globalId = s.globalId := by
  simp only [enable_write_queue]
  split <;> rfl

/-- C4 (amended): with closed == 3 and a non-empty free count, queue_request
completes the upstream immediately with ETIMEDOUT, returns -ETIMEDOUT and
changes nothing. -/
theorem c4_amended (s : TdnbdData) (typ offset length treq : Nat)
    (h3 : s.closed = 3) (hf : s.nrFreeCount ≠ 0) :
    tdnbd_queue_request s typ offset length treq
      = ⟨s, -etimedout, [(treq, -etimedout)], []⟩ := by
  simp only [tdnbd_queue_request, if_neg hf, if_pos h3]

theorem c4_amended_witness :
    tdnbd_queue_request c4stateB 0 0 0 9
      = ⟨c4stateB, -etimedout, [(9, -etimedout)], []⟩ :=
  c4_amended c4stateB 0 0 0 9 (by decide) (by decide)

/-- C5 (amended): every call of queue_request that fills a slot writes an
8-byte handle "td" followed by the 5 hex digits of the process-wide counter
taken modulo 0xffff = 65535 (not 2^20), and increments the counter once. -/
theorem c5_amended (s : TdnbdData) (typ offset length treq i : Nat) (rest : List Nat)
    (h0 : s.nrFreeCount ≠ 0) (h1 : s.closed ≠ 3) (hf : s.freeReqs = i :: rest) :
    ((tdnbd_queue_request s typ offset length treq).state.requests i).handle
      = 116 :: 100 :: hex5 (s.globalId % 65535) ++ [0]
    ∧ ((tdnbd_queue_request s typ offset length treq).state.requests i).handle.length = 8
    ∧ (tdnbd_queue_request s typ offset length treq).state.globalId = s.globalId + 1 := by
  simp only [tdnbd_queue_request, if_neg h0, if_neg h1, hf]
  refine ⟨?_, ?_, ?_⟩ <;>
  · split <;>
      simp [queueFill, setReq, Function.update_same, handleBytes, hex5]

theorem c5_amended_witness :
    ((tdnbd_queue_request c5state 0 0 512 7).state.requests 1).handle
      = 116 :: 100 :: hex5 (c5state.globalId % 65535) ++ [0]
    ∧ ((tdnbd_queue_request c5state 0 0 512 7).state.requests 1).handle.length = 8
    ∧ (tdnbd_queue_request c5state 0 0 512 7).state.globalId = c5state.globalId + 1 :=
  c5_amended c5state 0 0 512 7 1 [0] (by decide) (by decide) (by decide)

/-- C6 (amended): tdnbd_stash_passed_fd stores the pair into the first slot,
in index order, that is unused (fd = -1) or whose stored id agrees with the
message on the first 39 bytes — the unused test coming first — closing the
chosen slot's fd beforehand when it is open; when no slot qualifies, fd is
closed and nothing is stored. -/
theorem c6_amended :
    (∀ (fd : Int) (msg : List Nat) (tbl : List PassedFd) (j : Nat),
      j < tbl.length →
      ((tbl.getD j ⟨[], -1⟩).fd = -1 ∨ msg.take 39 = (tbl.getD j ⟨[], -1⟩).id.take 39) →
      (∀ k, k < j →
        ¬((tbl.getD k ⟨[], -1⟩).fd = -1 ∨ msg.take 39 = (tbl.getD k ⟨[], -1⟩).id.take 39)) →
      tdnbd_stash_passed_fd fd msg tbl
        = (tbl.set j ⟨msg.take 39, fd⟩,
           if -1 < (tbl.getD j ⟨[], -1⟩).fd then [(tbl.getD j ⟨[], -1⟩).fd] else []))
    ∧ (∀ (fd : Int) (msg : List Nat) (tbl : List PassedFd),
      (∀ k, k < tbl.length →
        ¬((tbl.getD k ⟨[], -1⟩).fd = -1 ∨ msg.take 39 = (tbl.getD k ⟨[], -1⟩).id.take 39)) →
      tdnbd_stash_passed_fd fd msg tbl = (tbl, [fd])) := by
  constructor
  · intro fd msg tbl
    induction tbl with
    | nil =>
      intro j hj
      exact absurd hj (by simp)
    | cons slot rest ih =>
      intro j hj hq hmin
      cases j with
      | zero =>
        simp only [List.getD_cons_zero] at hq ⊢
        simp only [tdnbd_stash_passed_fd, if_pos hq, List.set_cons_zero]
      | succ j2 =>
        have h0 : ¬(slot.fd = -1 ∨ msg.take 39 = slot.id.take 39) := by
          have := hmin 0 (Nat.succ_pos j2)
          simpa using this
        simp only [List.getD_cons_succ] at hq ⊢
        simp only [tdnbd_stash_passed_fd, if_neg h0, List.set_cons_succ]
        rw [ih j2 (by simpa using hj) hq
          (fun k hk => by simpa using hmin (k + 1) (by omega))]
  · intro fd msg tbl
    induction tbl with
    | nil => intro _; rfl
    | cons slot rest ih =>
      intro hall
      have h0 : ¬(slot.fd = -1 ∨ msg.take 39 = slot.id.take 39) := by
        have := hall 0 (by simp)
        simpa using this
      simp only [tdnbd_stash_passed_fd, if_neg h0]
      rw [ih (fun k hk => by
        have := hall (k + 1) (by simpa using hk)
        simpa using this)]

theorem c6_amended_witness :
    tdnbd_stash_passed_fd 9 [2] [⟨[1], 3⟩, ⟨[], -1⟩] = ([⟨[1], 3⟩, ⟨[2], 9⟩], []) := by
  have h := c6_amended.1 9 [2] [⟨[1], 3⟩, ⟨[], -1⟩] 1 (by decide) (by decide)
    (by decide)
  simpa using h

@[simp] theorem EngineOut_mk_state (a : TdnbdData) (b : Int) (c : List (Nat × Int))
    (d : List Int) : (EngineOut.mk a b c d).state = a := rfl

@[simp] theorem queueFill_freeReqs (s : TdnbdData) (i : Nat) (rest : List Nat)
    (typ offset length treq : Nat) :
    (queueFill s i rest typ offset length treq).freeReqs = rest := rfl

@[simp] theorem queueFill_pendingReqs (s : TdnbdData) (i : Nat) (rest : List Nat)
    (typ offset length treq : Nat) :
    (queueFill s i rest typ offset length treq).pendingReqs = s.pendingReqs ++ [i] := rfl

@[simp] theorem queueFill_sentReqs (s : TdnbdData) (i : Nat) (rest : List Nat)
    (typ offset length treq : Nat) :
    (queueFill s i rest typ offset length treq).sentReqs = s.sentReqs := rfl

@[simp] theorem queueFill_nrFreeCount (s : TdnbdData) (i : Nat) (rest : List Nat)
    (typ offset length treq : Nat) :
    (queueFill s i rest typ offset length treq).nrFreeCount = s.nrFreeCount - 1 := rfl

@[simp] theorem queueFill_currReplyReq (s : TdnbdData) (i : Nat) (rest : List Nat)
    (typ offset length treq : Nat) :
    (queueFill s i rest typ offset length treq).currReplyReq = s.currReplyReq := rfl

@[simp] theorem queueFill_writerEventId (s : TdnbdData) (i : Nat) (rest : List Nat)
    (typ offset length treq : Nat) :
    (queueFill s i rest typ offset length treq).writerEventId = s.writerEventId := rfl

@[simp] theorem enable_write_queue_freeReqs (s : TdnbdData) :
    (enable_write_queue s).freeReqs = s.freeReqs := by
  simp only [enable_write_queue]
  split <;> rfl

@[simp] theorem enable_write_queue_pendingReqs (s : TdnbdData) :
    (enable_write_queue s).pendingReqs = s.pendingReqs := by
  simp only [enable_write_queue]
  split <;> rfl

@[simp] theorem enable_write_queue_sentReqs (s : TdnbdData) :
    (enable_write_queue s).sentReqs = s.sentReqs := by
  simp only [enable_write_queue]
  split <;> rfl

@[simp] theorem enable_write_queue_nrFreeCount (s : TdnbdData) :
    (enable_write_queue s).nrFreeCount = s.nrFreeCount := by
  simp only [enable_write_queue]
  split <;> rfl

@[simp] theorem enable_write_queue_currReplyReq (s : TdnbdData) :
    (enable_write_queue s).currReplyReq = s.currReplyReq := by
  simp only [enable_write_queue]
  split <;> rfl

theorem enable_write_queue_wid_nonneg (s : TdnbdData) :
    0 ≤ (enable_write_queue s).writerEventId := by
  unfold enable_write_queue
  split
  · assumption
  · exact Int.natCast_nonneg _

@[simp] theorem disable_write_queue_freeReqs (s : TdnbdData) :
    (disable_write_queue s).1.freeReqs = s.freeReqs := by
  simp only [disable_write_queue]
  split <;> rfl

@[simp] theorem disable_write_queue_pendingReqs (s : TdnbdData) :
    (disable_write_queue s).1.pendingReqs = s.pendingReqs := by
  simp only [disable_write_queue]
  split <;> rfl

@[simp] theorem disable_write_queue_sentReqs (s : TdnbdData) :
    (disable_write_queue s).1.sentReqs = s.sentReqs := by
  simp only [disable_write_queue]
  split <;> rfl

@[simp] theorem disable_write_queue_nrFreeCount (s : TdnbdData) :
    (disable_write_queue s).1.nrFreeCount = s.nrFreeCount := by
  simp only [disable_write_queue]
  split <;> rfl

@[simp] theorem disable_write_queue_currReplyReq (s : TdnbdData) :
    (disable_write_queue s).1.currReplyReq = s.currReplyReq := by
  simp only [disable_write_queue]
  split <;> rfl

theorem disable_write_queue_wid_neg (s : TdnbdData) :
    (disable_write_queue s).1.writerEventId < 0 := by
  unfold disable_write_queue
  split
  · assumption
  · show (-1 : Int) < 0
    decide

@[simp] theorem readerFinish_freeReqs (s : TdnbdData) (i : Nat) (comps : List (Nat × Int)) :
    (readerFinish s i comps).state.freeReqs = i :: s.freeReqs.erase i := rfl

@[simp] theorem readerFinish_pendingReqs (s : TdnbdData) (i : Nat) (comps : List (Nat × Int)) :
    (readerFinish s i comps).state.pendingReqs = s.pendingReqs.erase i := rfl

@[simp] theorem readerFinish_sentReqs (s : TdnbdData) (i : Nat) (comps : List (Nat × Int)) :
    (readerFinish s i comps).state.sentReqs = s.sentReqs.erase i := rfl

@[simp] theorem readerFinish_nrFreeCount (s : TdnbdData) (i : Nat) (comps : List (Nat × Int)) :
    (readerFinish s i comps).state.nrFreeCount = s.nrFreeCount + 1 := rfl

@[simp] theorem readerFinish_currReplyReq (s : TdnbdData) (i : Nat) (comps : List (Nat × Int)) :
    (readerFinish s i comps).state.currReplyReq = none := rfl

@[simp] theorem readerFinish_writerEventId (s : TdnbdData) (i : Nat) (comps : List (Nat × Int)) :
    (readerFinish s i comps).state.writerEventId = s.writerEventId := rfl

theorem perm_pop_free (i : Nat) (f p s R : List Nat)
    (h : List.Perm ((i :: f) ++ p ++ s) R) :
    List.Perm (f ++ (p ++ [i]) ++ s) R := by
  have e1 : f ++ (p ++ [i]) ++ s = (f ++ p) ++ (i :: s) := by simp
  rw [e1]
  exact List.Perm.trans List.perm_middle h

theorem perm_pending_head_to_free (i : Nat) (f rest s R : List Nat)
    (h : List.Perm (f ++ (i :: rest) ++ s) R) :
    List.Perm ((i :: f) ++ rest ++ s) R :=
  (List.perm_middle.append_right s).symm.trans h

theorem perm_pending_head_to_sent (i : Nat) (f rest s R : List Nat)
    (h : List.Perm (f ++ (i :: rest) ++ s) R) :
    List.Perm (f ++ rest ++ (i :: s)) R := by
  refine List.Perm.trans List.perm_middle ?_
  exact (List.perm_middle.append_right s).symm.trans h

theorem perm_sent_to_free (i : Nat) (f p s R : List Nat) (hi : i ∈ s)
    (h : List.Perm (f ++ p ++ s) R) :
    List.Perm ((i :: f) ++ p ++ s.erase i) R := by
  have h2 : List.Perm ((f ++ p) ++ s) ((f ++ p) ++ (i :: s.erase i)) :=
    (List.perm_cons_erase hi).append_left (f ++ p)
  have h3 : List.Perm ((f ++ p) ++ (i :: s.erase i)) (i :: ((f ++ p) ++ s.erase i)) :=
    List.perm_middle
  exact h3.symm.trans (h2.symm.trans h)

theorem perm_range_mem_s_not (n i : Nat) (f p s : List Nat)
    (h : List.Perm (f ++ p ++ s) (List.range n)) (hi : i ∈ s) :
    i ∉ f ∧ i ∉ p := by
  have hnd : (f ++ p ++ s).Nodup := (h.symm).nodup (List.nodup_range n)
  rw [List.nodup_append] at hnd
  obtain ⟨hfp, hs, hdisj⟩ := hnd
  constructor
  · intro hif
    exact hdisj (List.mem_append.mpr (Or.inl hif)) hi
  · intro hip
    exact hdisj (List.mem_append.mpr (Or.inr hip)) hi

theorem perm_range_mem_p_not (n i : Nat) (f p s : List Nat)
    (h : List.Perm (f ++ p ++ s) (List.range n)) (hi : i ∈ p) :
    i ∉ f ∧ i ∉ s := by
  have hnd : (f ++ p ++ s).Nodup := (h.symm).nodup (List.nodup_range n)
  rw [List.nodup_append] at hnd
  obtain ⟨hfp, hs, hdisj⟩ := hnd
  rw [List.nodup_append] at hfp
  obtain ⟨hf, hp, hdisj2⟩ := hfp
  exact ⟨fun hif => hdisj2 hif hi,
    fun his => hdisj (List.mem_append.mpr (Or.inr hi)) his⟩

theorem core_inv_enable (n : Nat) (s : TdnbdData) (h : CoreInv n s) :
    CoreInv n (enable_write_queue s) := by
  unfold enable_write_queue
  split
  · exact h
  · exact h

theorem core_inv_dwq (n : Nat) (s : TdnbdData) (h : CoreInv n s) :
    CoreInv n (disable_write_queue s).1 := by
  unfold disable_write_queue
  split
  · exact h
  · exact h

theorem core_inv_disable (n : Nat) (s : TdnbdData) (e : Int) (h : CoreInv n s) :
    CoreInv n (tdnbd_disable s e).1 := by
  obtain ⟨h1, h2, h3⟩ := h
  exact ⟨h1, h2, h3⟩

theorem core_inv_move_to_sent (n : Nat) (s : TdnbdData) (i : Nat) (rest : List Nat)
    (hsync : s.pendingReqs = i :: rest) (h : CoreInv n s) :
    CoreInv n (moveToSent s i) := by
  obtain ⟨hperm, hcnt, hrep⟩ := h
  have hip : i ∈ s.pendingReqs := by rw [hsync]; simp
  obtain ⟨hnf, hns⟩ :=
    perm_range_mem_p_not n i s.freeReqs s.pendingReqs s.sentReqs hperm hip
  refine ⟨?_, ?_, ?_⟩
  · simp only [moveToSent_freeReqs, moveToSent_pendingReqs, moveToSent_sentReqs]
    rw [hsync, List.erase_cons_head, List.erase_of_not_mem hnf,
      List.erase_of_not_mem hns]
    rw [hsync] at hperm
    exact perm_pending_head_to_sent i s.freeReqs rest s.sentReqs _ hperm
  · simp only [moveToSent_nrFreeCount, moveToSent_freeReqs]
    rw [List.erase_of_not_mem hnf]
    exact hcnt
  · intro j hj
    simp only [moveToSent_currReplyReq] at hj
    simp only [moveToSent_sentReqs]
    rw [List.erase_of_not_mem hns]
    exact List.mem_cons_of_mem i (hrep j hj)

theorem move_to_sent_pending (s : TdnbdData) (i : Nat) (rest : List Nat)
    (hsync : s.pendingReqs = i :: rest) : (moveToSent s i).pendingReqs = rest := by
  simp only [moveToSent_pendingReqs, hsync, List.erase_cons_head]

theorem core_inv_move_to_free_disc (n : Nat) (s : TdnbdData) (i : Nat) (rest : List Nat)
    (hsync : s.pendingReqs = i :: rest) (h : CoreInv n s) :
    CoreInv n (moveToFreeDisc s i) := by
  obtain ⟨hperm, hcnt, hrep⟩ := h
  have hip : i ∈ s.pendingReqs := by rw [hsync]; simp
  obtain ⟨hnf, hns⟩ :=
    perm_range_mem_p_not n i s.freeReqs s.pendingReqs s.sentReqs hperm hip
  refine ⟨?_, ?_, ?_⟩
  · simp only [moveToFreeDisc_freeReqs, moveToFreeDisc_pendingReqs,
      moveToFreeDisc_sentReqs]
    rw [hsync, List.erase_cons_head, List.erase_of_not_mem hnf,
      List.erase_of_not_mem hns]
    rw [hsync] at hperm
    exact perm_pending_head_to_free i s.freeReqs rest s.sentReqs _ hperm
  · simp only [moveToFreeDisc_nrFreeCount, moveToFreeDisc_freeReqs]
    rw [List.erase_of_not_mem hnf]
    simp [hcnt]
  · intro j hj
    simp only [moveToFreeDisc_currReplyReq] at hj
    simp only [moveToFreeDisc_sentReqs]
    rw [List.erase_of_not_mem hns]
    exact hrep j hj

theorem move_to_free_disc_pending (s : TdnbdData) (i : Nat) (rest : List Nat)
    (hsync : s.pendingReqs = i :: rest) : (moveToFreeDisc s i).pendingReqs = rest := by
  simp only [moveToFreeDisc_pendingReqs, hsync, List.erase_cons_head]

theorem queue_request_core (n : Nat) (s : TdnbdData) (typ offset length treq : Nat)
    (h : CoreInv n s) :
    CoreInv n (tdnbd_queue_request s typ offset length treq).state := by
  unfold tdnbd_queue_request
  split
  · exact h
  · split
    · exact h
    · split
      · exact h
      · rename_i i rest heq
        have hfill : CoreInv n (queueFill s i rest typ offset length treq) := by
          obtain ⟨hperm, hcnt, hrep⟩ := h
          refine ⟨?_, ?_, ?_⟩
          · simp only [queueFill_freeReqs, queueFill_pendingReqs, queueFill_sentReqs]
            rw [heq] at hperm
            exact perm_pop_free i rest s.pendingReqs s.sentReqs _ hperm
          · simp only [queueFill_nrFreeCount, queueFill_freeReqs]
            rw [hcnt, heq]
            simp
          · intro j hj
            simp only [queueFill_currReplyReq] at hj
            simp only [queueFill_sentReqs]
            exact hrep j hj
        simp only [EngineOut_mk_state]
        split
        · exact core_inv_enable n _ hfill
        · exact hfill

theorem queue_request_iff (s : TdnbdData) (typ offset length treq : Nat)
    (h : 0 ≤ s.writerEventId ↔ s.pendingReqs ≠ []) :
    0 ≤ (tdnbd_queue_request s typ offset length treq).state.writerEventId
      ↔ (tdnbd_queue_request s typ offset length treq).state.pendingReqs ≠ [] := by
  unfold tdnbd_queue_request
  split
  · exact h
  · split
    · exact h
    · split
      · exact h
      · rename_i i rest heq
        simp only [EngineOut_mk_state]
        split
        · constructor
          · intro _
            simp only [enable_write_queue_pendingReqs, queueFill_pendingReqs]
            simp
          · intro _
            exact enable_write_queue_wid_nonneg _
        · rename_i hw
          simp only [queueFill_writerEventId] at hw
          constructor
          · intro _
            simp only [queueFill_pendingReqs]
            simp
          · intro _
            show 0 ≤ s.writerEventId
            omega

theorem writer_post_core (n : Nat) (s : TdnbdData) (h : CoreInv n s) :
    CoreInv n (writerPost s).state := by
  unfold writerPost
  split
  · simp only [EngineOut_mk_state]
    exact core_inv_disable n _ eio (core_inv_dwq n s h)
  · simp only [EngineOut_mk_state]
    exact core_inv_dwq n s h

theorem writer_post_iff (s : TdnbdData) (hp : s.pendingReqs = []) :
    0 ≤ (writerPost s).state.writerEventId
      ↔ (writerPost s).state.pendingReqs ≠ [] := by
  have hw := disable_write_queue_wid_neg s
  unfold writerPost
  split
  · simp only [EngineOut_mk_state]
    constructor
    · intro h2
      show (tdnbd_disable (disable_write_queue s).1 eio).1.pendingReqs ≠ []
      have h3 : 0 ≤ (disable_write_queue s).1.writerEventId := h2
      omega
    · intro h2
      have h3 : (tdnbd_disable (disable_write_queue s).1 eio).1.pendingReqs = [] := by
        simp only [tdnbd_disable_pendingReqs, disable_write_queue_pendingReqs, hp]
      exact absurd h3 h2
  · simp only [EngineOut_mk_state]
    constructor
    · intro h2
      have h3 : 0 ≤ (disable_write_queue s).1.writerEventId := h2
      omega
    · intro h2
      have h3 : (disable_write_queue s).1.pendingReqs = [] := by
        simp only [disable_write_queue_pendingReqs, hp]
      exact absurd h3 h2

theorem writer_loop_core (n : Nat) :
    ∀ (todo : List Nat) (s : TdnbdData) (oracle : List (List SendRes)),
    s.pendingReqs = todo → CoreInv n s →
    CoreInv n (tdnbd_writer_cb_loop todo s oracle).state := by
  intro todo
  induction todo with
  | nil =>
    intro s oracle hsync h
    exact writer_post_core n s h
  | cons i rest ih =>
    intro s oracle hsync h
    unfold tdnbd_writer_cb_loop
    split
    · exact h
    · split
      · split
        · exact h
        · exact ih _ _ (move_to_sent_pending _ i rest hsync)
            (core_inv_move_to_sent n _ i rest hsync h)
      · split
        · exact ih _ _ (move_to_free_disc_pending _ i rest hsync)
            (core_inv_move_to_free_disc n _ i rest hsync h)
        · exact ih _ _ (move_to_sent_pending _ i rest hsync)
            (core_inv_move_to_sent n _ i rest hsync h)

theorem writer_loop_iff :
    ∀ (todo : List Nat) (s : TdnbdData) (oracle : List (List SendRes)),
    s.pendingReqs = todo → (0 ≤ s.writerEventId ∨ s.pendingReqs = []) →
    (0 ≤ (tdnbd_writer_cb_loop todo s oracle).state.writerEventId
      ↔ (tdnbd_writer_cb_loop todo s oracle).state.pendingReqs ≠ []) := by
  intro todo
  induction todo with
  | nil =>
    intro s oracle hsync hw
    exact writer_post_iff s hsync
  | cons i rest ih =>
    intro s oracle hsync hw
    have hwid : 0 ≤ s.writerEventId := by
      rcases hw with h1 | h1
      · exact h1
      · rw [hsync] at h1
        exact absurd h1 (by simp)
    unfold tdnbd_writer_cb_loop
    split
    · show 0 ≤ s.writerEventId ↔ s.pendingReqs ≠ []
      rw [hsync]
      simp [hwid]
    · split
      · split
        · show 0 ≤ s.writerEventId ↔ s.pendingReqs ≠ []
          rw [hsync]
          simp [hwid]
        · exact ih _ _ (move_to_sent_pending _ i rest hsync) (Or.inl hwid)
      · split
        · exact ih _ _ (move_to_free_disc_pending _ i rest hsync) (Or.inl hwid)
        · exact ih _ _ (move_to_sent_pending _ i rest hsync) (Or.inl hwid)

theorem reader_find_mem (n : Nat) (s : TdnbdData) (i : Nat) (h : CoreInv n s)
    (hf : readerFind s = some i) : i ∈ s.sentReqs := by
  unfold readerFind at hf
  cases hcr : s.currReplyReq with
  | some j =>
    rw [hcr] at hf
    have hf2 : some j = some i := hf
    obtain rfl : j = i := Option.some.inj hf2
    exact h.2.2 _ hcr
  | none =>
    rw [hcr] at hf
    exact List.mem_of_find?_eq_some hf

theorem core_inv_reader_finish (n : Nat) (s : TdnbdData) (i : Nat)
    (comps : List (Nat × Int)) (hi : i ∈ s.sentReqs) (h : CoreInv n s) :
    CoreInv n (readerFinish s i comps).state := by
  obtain ⟨hperm, hcnt, hrep⟩ := h
  obtain ⟨hnf, hnp⟩ :=
    perm_range_mem_s_not n i s.freeReqs s.pendingReqs s.sentReqs hperm hi
  refine ⟨?_, ?_, ?_⟩
  · simp only [readerFinish_freeReqs, readerFinish_pendingReqs, readerFinish_sentReqs]
    rw [List.erase_of_not_mem hnf, List.erase_of_not_mem hnp]
    exact perm_sent_to_free i s.freeReqs s.pendingReqs s.sentReqs _ hi hperm
  · simp only [readerFinish_nrFreeCount, readerFinish_freeReqs]
    rw [List.erase_of_not_mem hnf]
    simp [hcnt]
  · intro j hj
    simp only [readerFinish_currReplyReq] at hj
    exact absurd hj (by simp)

theorem reader_finish_pending (n : Nat) (s : TdnbdData) (i : Nat)
    (comps : List (Nat × Int)) (hi : i ∈ s.sentReqs) (h : CoreInv n s) :
    (readerFinish s i comps).state.pendingReqs = s.pendingReqs := by
  obtain ⟨hperm, _, _⟩ := h
  obtain ⟨_, hnp⟩ :=
    perm_range_mem_s_not n i s.freeReqs s.pendingReqs s.sentReqs hperm hi
  simp only [readerFinish_pendingReqs]
  exact List.erase_of_not_mem hnp

theorem reader_dispatch_pres (n : Nat) (s : TdnbdData) (i : Nat)
    (bodyEvs : List SendRes) (hi : i ∈ s.sentReqs) (h : EngineInv n s) :
    EngineInv n (readerDispatch s i bodyEvs).state := by
  obtain ⟨hcore, hiff⟩ := h
  have hcore1 : CoreInv n (readerMatch s i) := by
    obtain ⟨h1, h2, h3⟩ := hcore
    refine ⟨h1, h2, ?_⟩
    intro j hj
    have hj2 : some i = some j := hj
    obtain rfl : i = j := Option.some.inj hj2
    exact hi
  unfold readerDispatch
  split
  · split
    · exact ⟨core_inv_disable n _ eio hcore1, hiff⟩
    · split
      · exact ⟨hcore1, hiff⟩
      · refine ⟨core_inv_reader_finish n _ i _ hi hcore1, ?_⟩
        have hp : (readerFinish (readerBodyAdvance (readerMatch s i) i bodyEvs) i
            [((s.requests i).treq, 0)]).state.pendingReqs = s.pendingReqs :=
          reader_finish_pending n _ i _ hi hcore1
        rw [hp]
        exact hiff
  · split
    · refine ⟨core_inv_reader_finish n _ i _ hi hcore1, ?_⟩
      have hp : (readerFinish (readerMatch s i) i
          [((s.requests i).treq, 0)]).state.pendingReqs = s.pendingReqs :=
        reader_finish_pending n _ i _ hi hcore1
      rw [hp]
      exact hiff
    · exact ⟨hcore1, hiff⟩

theorem reader_cb_pres (n : Nat) (s : TdnbdData) (hdrEvs : List SendRes)
    (rep : NbdReply) (bodyEvs : List SendRes) (h : EngineInv n s) :
    EngineInv n (tdnbd_reader_cb s hdrEvs rep bodyEvs).state := by
  obtain ⟨hcore, hiff⟩ := h
  have hcore0 : CoreInv n (readerAdvanceHdr s hdrEvs rep) := hcore
  unfold tdnbd_reader_cb
  split
  · exact ⟨core_inv_disable n _ eio hcore0, hiff⟩
  · split
    · exact ⟨hcore0, hiff⟩
    · split
      · exact ⟨core_inv_disable n _ eio hcore0, hiff⟩
      · split
        · exact ⟨core_inv_disable n _ eio hcore0, hiff⟩
        · rename_i i hfind
          exact reader_dispatch_pres n _ i bodyEvs
            (reader_find_mem n _ i hcore0 hfind) ⟨hcore0, hiff⟩

theorem writer_cb_pres (n : Nat) (s : TdnbdData) (oracle : List (List SendRes))
    (h : EngineInv n s) : EngineInv n (tdnbd_writer_cb s oracle).state := by
  obtain ⟨hcore, hiff⟩ := h
  constructor
  · exact writer_loop_core n s.pendingReqs s oracle rfl hcore
  · apply writer_loop_iff s.pendingReqs s oracle rfl
    by_cases h1 : s.pendingReqs = []
    · exact Or.inr h1
    · exact Or.inl (hiff.mpr h1)

theorem queue_pres (n : Nat) (s : TdnbdData) (typ offset length treq : Nat)
    (h : EngineInv n s) :
    EngineInv n (tdnbd_queue_request s typ offset length treq).state :=
  ⟨queue_request_core n s typ offset length treq h.1,
   queue_request_iff s typ offset length treq h.2⟩

theorem engine_inv_init (n : Nat) : EngineInv n (initState n) := by
  refine ⟨⟨?_, ?_, ?_⟩, ?_⟩
  · show List.Perm ((List.range n).reverse ++ [] ++ []) (List.range n)
    simp only [List.append_nil]
    exact List.reverse_perm (List.range n)
  · show n = ((List.range n).reverse).length
    simp
  · intro j hj
    exact absurd hj (by simp [initState])
  · show (0 ≤ (-1 : Int)) ↔ (([] : List Nat) ≠ [])
    decide

theorem reachable_engine_inv (n : Nat) (s : TdnbdData) (h : Reachable n s) :
    EngineInv n s := by
  induction h with
  | init => exact engine_inv_init n
  | queue s2 typ offset length treq _ ih =>
    exact queue_pres n s2 typ offset length treq ih
  | writer s2 oracle _ ih => exact writer_cb_pres n s2 oracle ih
  | reader s2 hdrEvs rep bodyEvs _ ih =>
    exact reader_cb_pres n s2 hdrEvs rep bodyEvs ih

/-- C2: in every connection state reachable from open by any sequence of
engine operations, nr_free_count equals the length of the free list, the
three list lengths account for all n slots, and every slot index below n
occurs exactly once across free, pending and sent. -/
theorem c2_engine_accounting (n : Nat) (s : TdnbdData) (h : Reachable n s) :
    s.nrFreeCount = s.freeReqs.length
    ∧ s.nrFreeCount + s.pendingReqs.length + s.sentReqs.length = n
    ∧ ∀ i, i < n → (s.freeReqs ++ s.pendingReqs ++ s.sentReqs).count i = 1 := by
  obtain ⟨⟨hperm, hcnt, _⟩, _⟩ := reachable_engine_inv n s h
  refine ⟨hcnt, ?_, ?_⟩
  · have hlen := hperm.length_eq
    simp only [List.length_append, List.length_range] at hlen
    omega
  · intro i hi
    rw [hperm.count_eq i]
    exact List.count_eq_one_of_mem (List.nodup_range n) (List.mem_range.mpr hi)

theorem c2_engine_accounting_witness :
    c2state.nrFreeCount = c2state.freeReqs.length
    ∧ c2state.nrFreeCount + c2state.pendingReqs.length + c2state.sentReqs.length = 2
    ∧ ∀ i, i < 2 →
        (c2state.freeReqs ++ c2state.pendingReqs ++ c2state.sentReqs).count i = 1 :=
  c2_engine_accounting 2 c2state
    (Reachable.queue (initState 2) 0 0 512 7 Reachable.init)

/-- C7: in every reachable connection state, after each completed engine
operation the writer event is registered (writer_event_id ≥ 0) precisely when
pending_reqs is non-empty. -/
theorem c7_writer_registered_iff (n : Nat) (s : TdnbdData) (h : Reachable n s) :
    0 ≤ s.writerEventId ↔ s.pendingReqs ≠ [] :=
  (reachable_engine_inv n s h).2

theorem c7_writer_registered_iff_witness :
    0 ≤ c7state.writerEventId ↔ c7state.pendingReqs ≠ [] :=
  c7_writer_registered_iff 3 c7state
    (Reachable.queue (initState 3) 1 0 512 8 Reachable.init)

end Tdnbd
